import Mathlib

/-!
Verification development for the e-library manager backend.

The program under study is a FastAPI + SQLAlchemy application
(`e_library_in_one.py`, with a trimmed modular copy under `app/`).
We shallowly embed its persistent state (the `books`, `users`, `loans`
tables) as lists of records, and each HTTP handler body as a pure
function from state to `Except ApiError` of the new state (a raised
`HTTPException` aborts the transaction, so an error result leaves the
state unchanged by construction; a single `db.commit()` at the end of a
handler makes the whole handler one atomic state transition).

Python `int` is modelled as `Int` (unbounded), booleans as `Bool`,
`NULL`-able columns as `Option`.  Dates and datetimes are only ever
stored or compared by the claims via `today + days`, so calendar points
are modelled as integers (`today` a day ordinal, `utcnow` a timestamp),
except for the CSV `published_date` column whose parsing matters and is
modelled by an explicit year-month-day structure.  Timestamp columns
that no claim inspects (`Book.created_at`, `Loan.borrowed_at`,
`User.joined_at`) are omitted from the records.
-/

/-- Error taxonomy of the handlers: `HTTPException(404)` for a missing
entity, `400 "No copies available"`, `400 "Loan already closed"` /
`400 "Cannot delete book with active loans"`, and `400` for a duplicate
ISBN or email. -/
inductive ApiError where
  | NotFound
  | OutOfStock
  | Conflict
  | DuplicateIdentifier
deriving DecidableEq, Repr

/-- Calendar date as produced by `date.fromisoformat` /
`datetime.strptime(.., "%Y-%m-%d").date()`. -/
structure PyDate where
  year : Nat
  month : Nat
  day : Nat
deriving DecidableEq, Repr

/-- Row of the `books` table (`class Book(Base)`).  `title` and `author`
are `nullable=False` columns, but the CSV importer can in fact hand the
ORM a `None` for them, so they are modelled as `Option String` here;
the HTTP create path always stores `some`. -/
structure Book where
  id : Nat
  title : Option String
  author : Option String
  isbn : Option String
  published_date : Option PyDate
  copies_total : Int
  copies_available : Int
deriving DecidableEq, Repr

/-- Row of the `users` table (`class User(Base)`). -/
structure User where
  id : Nat
  name : String
  email : String
deriving DecidableEq, Repr

/-- Row of the `loans` table (`class Loan(Base)`).  `due_date` is a day
ordinal (`date.today() + timedelta(days)`), `returned_at` a timestamp
(`datetime.utcnow()`). -/
structure Loan where
  id : Nat
  user_id : Nat
  book_id : Nat
  due_date : Int
  returned_at : Option Int
  active : Bool
deriving DecidableEq, Repr

/-- The persistent store: the three tables plus the autoincrement
primary-key counters the database assigns on `INSERT`. -/
structure DB where
  books : List Book
  users : List User
  loans : List Loan
  nextBookId : Nat
  nextLoanId : Nat
deriving DecidableEq, Repr

/-- Python truthiness of an optional string: `None` and `""` are falsy
(`if book_in.isbn:`, `title or book.title`, `if pd_str:`). -/
def pyTruthy : Option String → Bool
  | none => false
  | some s => !(s == "")

/-- Whitespace stripped by the Python `str.strip()` method / tolerated by
`int()`. -/
def isSpaceChar (c : Char) : Bool :=
  c = ' ' ∨ c = '\t' ∨ c = '\n' ∨ c = '\r'

/-- Strip leading and trailing whitespace from a character list. -/
def trimChars (l : List Char) : List Char :=
  ((l.dropWhile isSpaceChar).reverse.dropWhile isSpaceChar).reverse

/-- Model of Python `str.strip()`. -/
def pyStrip (s : String) : String :=
  ⟨trimChars s.data⟩

/-- Model of `db.query(T).filter(T.id == key).first()` on a table: the first row
whose primary key matches. -/
def findBook (db : DB) (book_id : Nat) : Option Book :=
  db.books.find? (fun b => b.id == book_id)

def findUser (db : DB) (user_id : Nat) : Option User :=
  db.users.find? (fun u => u.id == user_id)

def findLoan (db : DB) (loan_id : Nat) : Option Loan :=
  db.loans.find? (fun l => l.id == loan_id)

/-- Committing a mutated ORM row: replace the first row with the same
primary key by the new row. -/
def replaceBy {α : Type} (key : α → Nat) : List α → α → List α
  | [], _ => []
  | x :: xs, nx => if key x == key nx then nx :: xs else x :: replaceBy key xs nx

/-- Model of `db.delete(row)`: remove the first row with the given primary key. -/
def removeBy {α : Type} (key : α → Nat) : List α → Nat → List α
  | [], _ => []
  | x :: xs, k => if key x == k then xs else x :: removeBy key xs k

/-- Model of `db.query(Loan).filter(Loan.book_id == book.id, Loan.active == True).count()`. -/
def activeLoanCount (loans : List Loan) (book_id : Nat) : Nat :=
  (loans.filter (fun l => l.book_id == book_id && l.active)).length

/-- Validated body of `POST /books/` (`BookCreate`): pydantic enforces
`constr(min_length=1)` on title/author and `Field(ge=0)` plus the
`ensure_non_negative_copies` validator on `copies_total`. -/
structure BookCreate where
  title : String
  author : String
  isbn : Option String
  published_date : Option PyDate
  copies_total : Int
deriving DecidableEq, Repr

/-- What the pydantic validation layer guarantees about a `BookCreate`
body before the handler runs. -/
abbrev BookCreate.valid (inp : BookCreate) : Prop :=
  inp.title ≠ "" ∧ inp.author ≠ "" ∧ 0 ≤ inp.copies_total

/-- Body of `PUT /books/{id}` (`BookUpdate`): all fields optional, and —
unlike `BookCreate` — with NO validator on `copies_total` (it is a bare
`Optional[int]`).  `none` models a field absent from the request
(`exclude_unset=True`). -/
structure BookUpdate where
  title : Option String
  author : Option String
  isbn : Option String
  copies_total : Option Int
deriving DecidableEq, Repr

/-- Handler `create_book`: reject a duplicate (truthy) ISBN, else insert
a Book with `copies_available = copies_total` and stripped title/author. -/
def create_book (db : DB) (inp : BookCreate) : Except ApiError DB :=
  if pyTruthy inp.isbn && db.books.any (fun b => b.isbn == inp.isbn) then
    .error .DuplicateIdentifier
  else
    .ok { db with
          books := db.books ++
            [{ id := db.nextBookId, title := some (pyStrip inp.title),
               author := some (pyStrip inp.author), isbn := inp.isbn,
               published_date := inp.published_date,
               copies_total := inp.copies_total,
               copies_available := inp.copies_total }],
          nextBookId := db.nextBookId + 1 }

/-- Body of the `update_book` handler on the fetched row: if
`copies_total` is in the request, `delta = new - old`,
`copies_available = max(0, copies_available + delta)`,
`copies_total = new`; then the remaining set fields are assigned
verbatim by the `setattr` loop. -/
def applyBookUpdate (book : Book) (upd : BookUpdate) : Book :=
  let book := match upd.copies_total with
    | some t =>
      { book with
        copies_available := max 0 (book.copies_available + (t - book.copies_total)),
        copies_total := t }
    | none => book
  let book := match upd.title with
    | some s => { book with title := some s }
    | none => book
  let book := match upd.author with
    | some s => { book with author := some s }
    | none => book
  let book := match upd.isbn with
    | some s => { book with isbn := some s }
    | none => book
  book

/-- Handler `update_book`: 404 if the book is absent, else commit the
mutated row. -/
def update_book (db : DB) (book_id : Nat) (upd : BookUpdate) : Except ApiError DB :=
  match findBook db book_id with
  | none => .error .NotFound
  | some book =>
    .ok { db with books := replaceBy (·.id) db.books (applyBookUpdate book upd) }

/-- Handler `delete_book`: 404 if absent; `Conflict` if the book has any
active loan; else delete the row. -/
def delete_book (db : DB) (book_id : Nat) : Except ApiError DB :=
  match findBook db book_id with
  | none => .error .NotFound
  | some book =>
    if 0 < activeLoanCount db.loans book.id then
      .error .Conflict
    else
      .ok { db with books := removeBy (·.id) db.books book.id }

/-- Default of the `days` query parameter of `POST /loans/borrow`
(`days: int = 14`). -/
def defaultLoanDays : Int := 14

/-- Handler `borrow_book` (from `e_library_in_one.py`; the `app/` copy is the
same minus `with_for_update`): 404 if user or book is missing,
`OutOfStock` if `copies_available < 1`, else create an active Loan due
`today + days` with `returned_at = NULL` and decrement
`copies_available`, all committed at once. -/
def borrow_book (db : DB) (user_id book_id : Nat) (days today : Int) :
    Except ApiError (DB × Loan) :=
  match findUser db user_id, findBook db book_id with
  | some user, some book =>
    if book.copies_available < 1 then
      .error .OutOfStock
    else
      let loan : Loan :=
        { id := db.nextLoanId, user_id := user.id, book_id := book.id,
          due_date := today + days, returned_at := none, active := true }
      let book' := { book with copies_available := book.copies_available - 1 }
      .ok ({ db with
             books := replaceBy (·.id) db.books book',
             loans := db.loans ++ [loan],
             nextLoanId := db.nextLoanId + 1 }, loan)
  | _, _ => .error .NotFound

/-- Handler `return_book` of `e_library_in_one.py`: 404 if the loan is
absent, `Conflict` ("Loan already closed") if it is no longer active,
else stamp `returned_at`, clear `active`, and bump the
`copies_available` of the book clamped to `copies_total` (when the book still
exists), all committed at once. -/
def return_book (db : DB) (loan_id : Nat) (now : Int) :
    Except ApiError (DB × Loan) :=
  match findLoan db loan_id with
  | none => .error .NotFound
  | some loan =>
    if !loan.active then
      .error .Conflict
    else
      let loan' := { loan with returned_at := some now, active := false }
      let db' := { db with loans := replaceBy (·.id) db.loans loan' }
      match findBook db loan.book_id with
      | some book =>
        let book' := { book with
          copies_available := min book.copies_total (book.copies_available + 1) }
        .ok ({ db' with books := replaceBy (·.id) db'.books book' }, loan')
      | none => .ok (db', loan')

/-- Handler `return_book` of `app/api/routes.py`: identical to the one
above EXCEPT that it never checks `loan.active`, so it happily closes an
already-closed loan again and re-increments the availability of the book. -/
def routes_return_book (db : DB) (loan_id : Nat) (now : Int) :
    Except ApiError (DB × Loan) :=
  match findLoan db loan_id with
  | none => .error .NotFound
  | some loan =>
    let loan' := { loan with returned_at := some now, active := false }
    let db' := { db with loans := replaceBy (·.id) db.loans loan' }
    match findBook db loan.book_id with
    | some book =>
      let book' := { book with
        copies_available := min book.copies_total (book.copies_available + 1) }
      .ok ({ db' with books := replaceBy (·.id) db'.books book' }, loan')
    | none => .ok (db', loan')

/-- One `csv.DictReader` row of the import file.  A field is `none` when
the column is absent from the header (`row.get(..) is None`); an empty
cell is `some ""`.  The handler probes both a lower-case and a
capitalized alias for title/author/isbn. -/
structure CsvRow where
  title : Option String
  Title : Option String
  author : Option String
  Author : Option String
  isbn : Option String
  ISBN : Option String
  published_date : Option String
  copies_total : Option String
deriving DecidableEq, Repr

/-- Model of `row.get("x") or row.get("X")`: the first alias if truthy, else the
second (which may itself be `None` or empty). -/
def getAlias (a b : Option String) : Option String :=
  if pyTruthy a then a else b

def allDigits (l : List Char) : Bool :=
  !l.isEmpty && l.all Char.isDigit

def natOfDigits (l : List Char) : Nat :=
  l.foldl (fun n c => 10 * n + (c.toNat - 48)) 0

/-- Model of Python `int(s)`: surrounding whitespace stripped, an
optional sign, then decimal digits; anything else raises `ValueError`. -/
def pyToInt (s : String) : Option Int :=
  match trimChars s.data with
  | '-' :: rest => if allDigits rest then some (-(natOfDigits rest : Int)) else none
  | '+' :: rest => if allDigits rest then some ((natOfDigits rest : Int)) else none
  | l => if allDigits l then some ((natOfDigits l : Int)) else none

/-- Split a character list at every `-`. -/
def splitOnDash : List Char → List Char → List (List Char)
  | [], acc => [acc.reverse]
  | c :: rest, acc =>
    if c = '-' then acc.reverse :: splitOnDash rest []
    else splitOnDash rest (c :: acc)

/-- Shared worker for the two date parsers: split on `-` into three
all-digit fields (a leading sign therefore never parses), optionally
requiring the zero-padded 4-2-2 shape, and range-check month and day. -/
def parseYMDParts (padded : Bool) (s : String) : Option PyDate :=
  match splitOnDash s.data [] with
  | [ys, ms, ds] =>
    if allDigits ys && allDigits ms && allDigits ds then
      if padded ∧ ¬(ys.length = 4 ∧ ms.length = 2 ∧ ds.length = 2) then none
      else
        if 1 ≤ natOfDigits ms ∧ natOfDigits ms ≤ 12 ∧
           1 ≤ natOfDigits ds ∧ natOfDigits ds ≤ 31 then
          some ⟨natOfDigits ys, natOfDigits ms, natOfDigits ds⟩
        else none
    else none
  | _ => none

/-- Model of `date.fromisoformat`: zero-padded `YYYY-MM-DD` only. -/
def date_fromisoformat (s : String) : Option PyDate :=
  parseYMDParts true s

/-- Model of `datetime.strptime(s, "%Y-%m-%d").date()`: also accepts unpadded
fields. -/
def strptime_Ymd (s : String) : Option PyDate :=
  parseYMDParts false s

/-- Date handling of the import loop: try ISO 8601 first and fall back to
the `%Y-%m-%d` `strptime` inside the inner `try/except`. -/
def parsePublishedDate (s : String) : Option PyDate :=
  match date_fromisoformat s with
  | some d => some d
  | none => strptime_Ymd s

/-- The fields of a row once the `try:` body has extracted and parsed
them without raising. -/
structure ParsedRow where
  title : Option String
  author : Option String
  isbn : Option String
  pd : Option PyDate
  copies : Int
deriving DecidableEq, Repr

/-- The parsing part of the import loop body.  The only statements that
can raise are `int(row.get("copies_total") or 1)` (bad integer) and the
date parse when both attempts fail; a missing/empty `title` or `author`
raises nothing here — it just stays `None`. -/
def parseRow (row : CsvRow) : Except String ParsedRow :=
  let title := getAlias row.title row.Title
  let author := getAlias row.author row.Author
  let isbn := getAlias row.isbn row.ISBN
  match (match row.copies_total with
         | some s => if s = "" then some 1 else pyToInt s
         | none => some 1) with
  | none => .error "invalid literal for int()"
  | some copies =>
    match row.published_date with
    | some s =>
      if s = "" then .ok ⟨title, author, isbn, none, copies⟩
      else
        match parsePublishedDate s with
        | none => .error "time data does not match format"
        | some d => .ok ⟨title, author, isbn, some d, copies⟩
    | none => .ok ⟨title, author, isbn, none, copies⟩

/-- The upsert part of the import loop body: with a truthy ISBN matching
an existing book, merge (adopt truthy title/author, `max` both
counters); otherwise insert a new Book with
`copies_available = copies_total` (and no ISBN when it was falsy). -/
def upsertRow (db : DB) (p : ParsedRow) : DB :=
  if pyTruthy p.isbn then
    match db.books.find? (fun b => b.isbn == p.isbn) with
    | some book =>
      let book' := { book with
        title := if pyTruthy p.title then p.title else book.title,
        author := if pyTruthy p.author then p.author else book.author,
        copies_total := max book.copies_total p.copies,
        copies_available := max book.copies_available p.copies }
      { db with books := replaceBy (·.id) db.books book' }
    | none =>
      { db with
        books := db.books ++
          [{ id := db.nextBookId, title := p.title, author := p.author,
             isbn := p.isbn, published_date := p.pd,
             copies_total := p.copies, copies_available := p.copies }],
        nextBookId := db.nextBookId + 1 }
  else
    { db with
      books := db.books ++
        [{ id := db.nextBookId, title := p.title, author := p.author,
           isbn := none, published_date := p.pd,
           copies_total := p.copies, copies_available := p.copies }],
      nextBookId := db.nextBookId + 1 }

/-- Result of `POST /import/books/csv`: the committed state, the
`created` counter and the accumulated `{row, error}` list. -/
structure ImportResult where
  db : DB
  created : Nat
  errors : List (Nat × String)
deriving DecidableEq, Repr

/-- The `for i, row in enumerate(reader, start=1)` loop: on a parse
failure append `{row: i, error: e}` and continue; otherwise apply the
upsert and count the row as created. -/
def importRows (db : DB) (rows : List CsvRow) (i : Nat) (created : Nat)
    (errors : List (Nat × String)) : ImportResult :=
  match rows with
  | [] => ⟨db, created, errors⟩
  | row :: rest =>
    match parseRow row with
    | .ok p => importRows (upsertRow db p) rest (i + 1) (created + 1) errors
    | .error e => importRows db rest (i + 1) created (errors ++ [(i, e)])

/-- Handler `import_books_csv` on the decoded data rows of the file. -/
def import_books_csv (db : DB) (rows : List CsvRow) : ImportResult :=
  importRows db rows 1 0 []

/-- The state effect of one import-loop iteration: a row that parses is
upserted, a row that raises leaves the store untouched. -/
def importStep (db : DB) (row : CsvRow) : DB :=
  match parseRow row with
  | .ok p => upsertRow db p
  | .error _ => db

/-- Whether a row gets through the `try:` body without raising. -/
def rowParses (row : CsvRow) : Bool :=
  match parseRow row with
  | .ok _ => true
  | .error _ => false

/-- The write operations of the system, as named by the claims. -/
inductive Op where
  | create (inp : BookCreate)
  | update (book_id : Nat) (upd : BookUpdate)
  | delete (book_id : Nat)
  | borrow (user_id book_id : Nat) (days today : Int)
  | ret (loan_id : Nat) (now : Int)
  | csvRow (row : CsvRow)
deriving DecidableEq, Repr

/-- Run one operation against the store.  An error result corresponds to
a raised `HTTPException`: the transaction is not committed, so the store
is unchanged. -/
def applyOp (db : DB) : Op → Except ApiError DB
  | .create inp => create_book db inp
  | .update book_id upd => update_book db book_id upd
  | .delete book_id => delete_book db book_id
  | .borrow user_id book_id days today =>
    (borrow_book db user_id book_id days today).map Prod.fst
  | .ret loan_id now => (return_book db loan_id now).map Prod.fst
  | .csvRow row => .ok (importStep db row)

/-- The range invariant of the spec: `0 ≤ copies_available ≤ copies_total`. -/
abbrev bookRangeOK (b : Book) : Prop :=
  0 ≤ b.copies_available ∧ b.copies_available ≤ b.copies_total

abbrev rangeInv (db : DB) : Prop :=
  ∀ b ∈ db.books, bookRangeOK b

/-- The ledger invariant of the spec: for every book,
`copies_total - copies_available` equals the number of active loans
referencing it. -/
abbrev ledgerInv (db : DB) : Prop :=
  ∀ b ∈ db.books, b.copies_total - b.copies_available =
    (activeLoanCount db.loans b.id : Int)

/-- Structural well-formedness the database schema provides: primary
keys of `books` are unique and below the autoincrement counter, and
every active loan references an existing book (delete is blocked while
active loans exist, so a dangling reference can only be inactive). -/
abbrev wf (db : DB) : Prop :=
  (db.books.map (·.id)).Nodup ∧
  (∀ b ∈ db.books, b.id < db.nextBookId) ∧
  (∀ l ∈ db.loans, l.active = true → l.book_id ∈ db.books.map (·.id))

/-- Per-operation input conditions under which the range invariant is
preserved: the body of `create_book` is pydantic-validated, while
`update_book` and the CSV importer perform no non-negativity check of
their own and need it as an assumption. -/
abbrev rangeInvPre (op : Op) : Prop :=
  match op with
  | .create inp => inp.valid
  | .update _ upd => ∀ t, upd.copies_total = some t → 0 ≤ t
  | .csvRow row => ∀ p, parseRow row = .ok p → 0 ≤ p.copies
  | _ => True

/-- Per-operation input conditions under which the ledger invariant is
preserved: `update_book` must not trip the `max(0, ..)` clamp, and a
CSV merge must not raise `copies_available` (incoming copies at most the
existing availability). -/
abbrev ledgerInvPre (db : DB) (op : Op) : Prop :=
  match op with
  | .update book_id upd =>
    ∀ b, findBook db book_id = some b → ∀ t, upd.copies_total = some t →
      0 ≤ b.copies_available + (t - b.copies_total)
  | .csvRow row =>
    ∀ p, parseRow row = .ok p → pyTruthy p.isbn = true →
      ∀ b, db.books.find? (fun x => x.isbn == p.isbn) = some b →
        p.copies ≤ b.copies_available
  | _ => True

/-! ### Concrete states used by counterexamples and witnesses -/

def exUser1 : User := ⟨1, "U", "u@example.com"⟩

def exBook1 : Book := ⟨1, some "T", some "A", none, none, 1, 1⟩

def exDB1 : DB := ⟨[exBook1], [], [], 2, 1⟩

/-- Request `PUT /books/1` with body `copies_total = -1` — passes `BookUpdate` validation,
which has no `ge=0` constraint. -/
def exUpdNeg : BookUpdate := ⟨none, none, none, some (-1)⟩

def exDB1' : DB := ⟨[⟨1, some "T", some "A", none, none, -1, 0⟩], [], [], 2, 1⟩

/-- A CSV row with `copies_total = "-2"`: `int("-2")` succeeds and
the importer performs no range check. -/
def exRowNegCopies : CsvRow := ⟨some "N", none, some "A", none, none, none, none, some "-2"⟩

def exDB1'' : DB := ⟨[exBook1, ⟨2, some "N", some "A", none, none, -2, -2⟩], [], [], 3, 1⟩

def exDBW : DB := ⟨[exBook1], [exUser1], [], 2, 1⟩

def exDBW' : DB :=
  ⟨[⟨1, some "T", some "A", none, none, 1, 0⟩], [exUser1], [⟨1, 1, 1, 114, none, true⟩], 2, 2⟩

def exBook2 : Book := ⟨1, some "T", some "A", some "X", none, 2, 0⟩

def exLoanA : Loan := ⟨1, 1, 1, 10, none, true⟩

def exLoanB : Loan := ⟨2, 1, 1, 10, none, true⟩

/-- A book with 2 copies, both on loan: `copies_total - copies_available
= 2 =` number of active loans. -/
def exDB2 : DB := ⟨[exBook2], [exUser1], [exLoanA, exLoanB], 2, 3⟩

def exUpd21 : BookUpdate := ⟨none, none, none, some 1⟩

def exDB2' : DB := ⟨[⟨1, some "T", some "A", some "X", none, 1, 0⟩], [exUser1], [exLoanA, exLoanB], 2, 3⟩

/-- CSV row merging into ISBN `X` with incoming `copies_total = 1`. -/
def exRowMerge : CsvRow := ⟨none, none, none, none, some "X", none, none, some "1"⟩

def exDB2'' : DB := ⟨[⟨1, some "T", some "A", some "X", none, 2, 1⟩], [exUser1], [exLoanA, exLoanB], 2, 3⟩

def exDB2r : DB :=
  ⟨[⟨1, some "T", some "A", some "X", none, 2, 1⟩], [exUser1],
   [⟨1, 1, 1, 10, some 50, false⟩, exLoanB], 2, 3⟩

def exDBW3 : DB :=
  ⟨[⟨1, some "T", some "A", none, none, 1, 0⟩], [exUser1], [⟨1, 1, 1, 107, none, true⟩], 2, 2⟩

def exLoan3 : Loan := ⟨1, 1, 1, 107, none, true⟩

def exBook4 : Book := ⟨1, some "B", some "A", none, none, 1, 0⟩

def exLoanClosed : Loan := ⟨1, 1, 1, 10, some 5, false⟩

/-- A store whose only loan is already closed (`active = false`). -/
def exDB4 : DB := ⟨[exBook4], [exUser1], [exLoanClosed], 2, 2⟩

def exDB4' : DB :=
  ⟨[⟨1, some "B", some "A", none, none, 1, 1⟩], [exUser1], [⟨1, 1, 1, 10, some 99, false⟩], 2, 2⟩

def exLoan4' : Loan := ⟨1, 1, 1, 10, some 99, false⟩

def exParsedMerge : ParsedRow := ⟨some "T2", none, some "X", none, 5⟩

def exParsedNew : ParsedRow := ⟨some "T3", some "A3", none, none, 3⟩

def db0 : DB := ⟨[], [], [], 1, 1⟩

/-- A data row whose `title`/`Title` cells are both absent: the loop
body raises nothing for it. -/
def exRowNoTitle : CsvRow := ⟨none, none, some "A", none, none, none, none, some "1"⟩

def exRowGood : CsvRow := ⟨some "T1", none, some "A", none, none, none, none, some "2"⟩

/-- A data row with an unparseable `copies_total`. -/
def exRowBadInt : CsvRow := ⟨some "T2", none, some "A", none, none, none, none, some "x"⟩

def exRows7 : List CsvRow := [exRowGood, exRowBadInt]

def exBook8 : Book := ⟨1, some "T", some "A", none, none, 5, 2⟩

def exDB8 : DB := ⟨[exBook8], [], [], 2, 1⟩

def exUpd8 : BookUpdate := ⟨none, none, none, some 1⟩

/-- Book 1 has one loan on record, already returned. -/
def exDB9 : DB := ⟨[exBook1], [exUser1], [exLoanClosed], 2, 2⟩

/-- Book 1 has one active loan. -/
def exDB9c : DB := ⟨[exBook1], [exUser1], [exLoanA], 2, 2⟩

/-! ### Helper lemmas about the list primitives -/

theorem find?_split {α : Type} (p : α → Bool) :
    ∀ (xs : List α) (x : α), xs.find? p = some x →
      ∃ l r, xs = l ++ x :: r ∧ (∀ y ∈ l, p y = false) ∧ p x = true := by
  intro xs
  induction xs with
  | nil => intro x h; simp [List.find?] at h
  | cons a as ih =>
    intro x h
    by_cases hp : p a
    · refine ⟨[], as, ?_, ?_, ?_⟩ <;> simp_all [List.find?]
    · rw [List.find?] at h
      simp only [hp] at h
      simp at hp
      obtain ⟨l, r, rfl, hl, hx⟩ := ih x h
      exact ⟨a :: l, r, rfl, by simp_all, hx⟩

theorem replaceBy_eq_middle {α : Type} (key : α → Nat) (x nx : α)
    (hkey : key nx = key x) :
    ∀ (l : List α) (r : List α), (∀ y ∈ l, key y ≠ key x) →
      replaceBy key (l ++ x :: r) nx = l ++ nx :: r := by
  intro l
  induction l with
  | nil => intro r _; simp [replaceBy, hkey]
  | cons a l ih =>
    intro r hl
    have ha : key a ≠ key x := hl a (by simp)
    simp only [List.cons_append, replaceBy, hkey]
    rw [if_neg (by simpa using ha)]
    simp only [List.append_eq]
    rw [ih r (fun y hy => hl y (List.mem_cons_of_mem a hy))]

theorem removeBy_eq_middle {α : Type} (key : α → Nat) (x : α) (k : Nat)
    (hkey : key x = k) :
    ∀ (l : List α) (r : List α), (∀ y ∈ l, key y ≠ k) →
      removeBy key (l ++ x :: r) k = l ++ r := by
  intro l
  induction l with
  | nil => intro r _; simp [removeBy, hkey]
  | cons a l ih =>
    intro r hl
    have ha : key a ≠ k := hl a (by simp)
    simp only [List.cons_append, removeBy]
    rw [if_neg (by simpa using ha)]
    simp only [List.append_eq]
    rw [ih r (fun y hy => hl y (List.mem_cons_of_mem a hy))]

theorem find?_append_cons {α : Type} (p : α → Bool) (x : α) :
    ∀ (l : List α) (r : List α), (∀ y ∈ l, p y = false) → p x = true →
      (l ++ x :: r).find? p = some x := by
  intro l
  induction l with
  | nil => intro r _ hx; simp [List.find?, hx]
  | cons a l ih =>
    intro r hl hx
    have ha : p a = false := hl a (by simp)
    simp only [List.cons_append, List.find?, ha]
    exact ih r (fun y hy => hl y (List.mem_cons_of_mem a hy)) hx

theorem mem_replaceBy {α : Type} (key : α → Nat) (nx : α) :
    ∀ (xs : List α) (x : α), x ∈ replaceBy key xs nx → x ∈ xs ∨ x = nx := by
  intro xs
  induction xs with
  | nil => intro x h; simp [replaceBy] at h
  | cons a as ih =>
    intro x h
    simp only [replaceBy] at h
    split at h
    · rcases List.mem_cons.mp h with h | h
      · right; exact h
      · left; exact List.mem_cons_of_mem a h
    · rcases List.mem_cons.mp h with h | h
      · left; simp [h]
      · rcases ih x h with h | h
        · left; exact List.mem_cons_of_mem a h
        · right; exact h

theorem mem_removeBy {α : Type} (key : α → Nat) (k : Nat) :
    ∀ (xs : List α) (x : α), x ∈ removeBy key xs k → x ∈ xs := by
  intro xs
  induction xs with
  | nil => intro x h; simp [removeBy] at h
  | cons a as ih =>
    intro x h
    simp only [removeBy] at h
    split at h
    · exact List.mem_cons_of_mem a h
    · rcases List.mem_cons.mp h with h | h
      · simp [h]
      · exact List.mem_cons_of_mem a (ih x h)

theorem key_ne_of_nodup_middle {α : Type} (key : α → Nat) (l r : List α) (b : α)
    (h : ((l ++ b :: r).map key).Nodup) : ∀ x ∈ l ++ r, key x ≠ key b := by
  rw [List.map_append, List.map_cons, List.nodup_middle] at h
  have hnot := (List.nodup_cons.mp h).1
  intro x hx heq
  apply hnot
  rw [← List.map_append]
  exact heq ▸ List.mem_map_of_mem key hx

theorem activeLoanCount_append (l r : List Loan) (book_id : Nat) :
    activeLoanCount (l ++ r) book_id =
      activeLoanCount l book_id + activeLoanCount r book_id := by
  simp [activeLoanCount, List.filter_append]

theorem activeLoanCount_cons (l : Loan) (ls : List Loan) (book_id : Nat) :
    activeLoanCount (l :: ls) book_id =
      (if l.book_id = book_id ∧ l.active = true then 1 else 0) +
        activeLoanCount ls book_id := by
  simp only [activeLoanCount, List.filter_cons]
  split <;> split <;> simp_all
  omega

theorem activeLoanCount_eq_zero (ls : List Loan) (book_id : Nat)
    (h : ∀ l ∈ ls, l.active = true → l.book_id ≠ book_id) :
    activeLoanCount ls book_id = 0 := by
  simp only [activeLoanCount, List.length_eq_zero, List.filter_eq_nil_iff]
  intro l hl
  intro hc
  rw [Bool.and_eq_true] at hc
  exact h l hl hc.2 (by simpa using hc.1)

theorem applyBookUpdate_id (book : Book) (upd : BookUpdate) :
    (applyBookUpdate book upd).id = book.id := by
  cases upd with
  | mk t a i c =>
    cases t <;> cases a <;> cases i <;> cases c <;> rfl

theorem applyBookUpdate_copies_total (book : Book) (upd : BookUpdate) :
    (applyBookUpdate book upd).copies_total =
      (match upd.copies_total with
       | some t => t
       | none => book.copies_total) := by
  cases upd with
  | mk t a i c =>
    cases t <;> cases a <;> cases i <;> cases c <;> rfl

theorem applyBookUpdate_copies_available (book : Book) (upd : BookUpdate) :
    (applyBookUpdate book upd).copies_available =
      (match upd.copies_total with
       | some t => max 0 (book.copies_available + (t - book.copies_total))
       | none => book.copies_available) := by
  cases upd with
  | mk t a i c =>
    cases t <;> cases a <;> cases i <;> cases c <;> rfl

/-! ### Preservation of the range invariant, operation by operation -/

theorem rangeInv_create (db : DB) (inp : BookCreate) (h : rangeInv db)
    (hc : 0 ≤ inp.copies_total) (db' : DB)
    (hok : create_book db inp = .ok db') : rangeInv db' := by
  unfold create_book at hok
  split at hok
  · exact absurd hok (by simp)
  · simp only [Except.ok.injEq] at hok
    subst hok
    intro b hb
    simp only [List.mem_append, List.mem_singleton] at hb
    rcases hb with hb | hb
    · exact h b hb
    · subst hb
      exact ⟨hc, le_refl _⟩

theorem rangeInv_update (db : DB) (book_id : Nat) (upd : BookUpdate)
    (h : rangeInv db) (hc : ∀ t, upd.copies_total = some t → 0 ≤ t)
    (db' : DB) (hok : update_book db book_id upd = .ok db') : rangeInv db' := by
  unfold update_book at hok
  cases hfind : findBook db book_id with
  | none => simp [hfind] at hok
  | some book =>
    simp only [hfind, Except.ok.injEq] at hok
    subst hok
    intro b hb
    rcases mem_replaceBy _ _ _ _ hb with hm | rfl
    · exact h b hm
    · have hrange := h book (by unfold findBook at hfind; exact List.mem_of_find?_eq_some hfind)
      have hct := applyBookUpdate_copies_total book upd
      have hca := applyBookUpdate_copies_available book upd
      simp only [bookRangeOK] at hrange ⊢
      cases hset : upd.copies_total with
      | none =>
        rw [hset] at hct hca
        simp only at hct hca
        omega
      | some t =>
        have ht := hc t hset
        rw [hset] at hct hca
        simp only at hct hca
        omega

theorem rangeInv_borrow (db : DB) (user_id book_id : Nat) (days today : Int)
    (h : rangeInv db) (db' : DB) (loan : Loan)
    (hok : borrow_book db user_id book_id days today = .ok (db', loan)) :
    rangeInv db' := by
  unfold borrow_book at hok
  cases hu : findUser db user_id with
  | none => simp [hu] at hok
  | some user =>
    cases hb : findBook db book_id with
    | none => simp [hu, hb] at hok
    | some book =>
      simp only [hu, hb] at hok
      by_cases hav : book.copies_available < 1
      · rw [if_pos hav] at hok; simp at hok
      · rw [if_neg hav] at hok
        simp only [Except.ok.injEq, Prod.mk.injEq] at hok
        obtain ⟨hdb, -⟩ := hok
        subst hdb
        intro b hb'
        rcases mem_replaceBy _ _ _ _ hb' with hm | rfl
        · exact h b hm
        · have hrange := h book (by unfold findBook at hb; exact List.mem_of_find?_eq_some hb)
          simp only [bookRangeOK] at hrange ⊢
          omega

theorem rangeInv_return (db : DB) (loan_id : Nat) (now : Int)
    (h : rangeInv db) (db' : DB) (loan' : Loan)
    (hok : return_book db loan_id now = .ok (db', loan')) : rangeInv db' := by
  unfold return_book at hok
  cases hfl : findLoan db loan_id with
  | none => simp [hfl] at hok
  | some loan =>
    simp only [hfl] at hok
    cases hact : loan.active with
    | false => simp [hact] at hok
    | true =>
      simp only [hact, Bool.not_true, Bool.false_eq_true, if_false] at hok
      cases hfb : findBook db loan.book_id with
      | none =>
        simp only [hfb, Except.ok.injEq, Prod.mk.injEq] at hok
        obtain ⟨hdb, -⟩ := hok
        subst hdb
        intro b hb'
        exact h b hb'
      | some book =>
        simp only [hfb, Except.ok.injEq, Prod.mk.injEq] at hok
        obtain ⟨hdb, -⟩ := hok
        subst hdb
        intro b hb'
        rcases mem_replaceBy _ _ _ _ hb' with hm | rfl
        · exact h b hm
        · have hrange := h book (by unfold findBook at hfb; exact List.mem_of_find?_eq_some hfb)
          simp only [bookRangeOK] at hrange ⊢
          omega

theorem rangeInv_delete (db : DB) (book_id : Nat) (h : rangeInv db)
    (db' : DB) (hok : delete_book db book_id = .ok db') : rangeInv db' := by
  unfold delete_book at hok
  cases hb : findBook db book_id with
  | none => simp [hb] at hok
  | some book =>
    simp only [hb] at hok
    by_cases hcnt : 0 < activeLoanCount db.loans book.id
    · rw [if_pos hcnt] at hok; simp at hok
    · rw [if_neg hcnt] at hok
      simp only [Except.ok.injEq] at hok
      subst hok
      intro b hb'
      exact h b (mem_removeBy _ _ _ _ hb')

theorem rangeInv_upsert (db : DB) (p : ParsedRow) (h : rangeInv db)
    (hc : 0 ≤ p.copies) : rangeInv (upsertRow db p) := by
  unfold upsertRow
  by_cases hisbn : pyTruthy p.isbn
  · rw [if_pos hisbn]
    cases hf : db.books.find? (fun x => x.isbn == p.isbn) with
    | some book =>
      intro b hb
      rcases mem_replaceBy _ _ _ _ hb with hm | rfl
      · exact h b hm
      · have hrange := h book (List.mem_of_find?_eq_some hf)
        simp only [bookRangeOK] at hrange ⊢
        omega
    | none =>
      intro b hb
      simp only [List.mem_append, List.mem_singleton] at hb
      rcases hb with hb | rfl
      · exact h b hb
      · exact ⟨hc, le_refl _⟩
  · rw [if_neg hisbn]
    intro b hb
    simp only [List.mem_append, List.mem_singleton] at hb
    rcases hb with hb | rfl
    · exact h b hb
    · exact ⟨hc, le_refl _⟩

/-- Claim C1 (amended): after `create_book` (whose body is validated to
`copies_total ≥ 0`), `update_book` with a non-negative requested
`copies_total`, `borrow_book`, `return_book`, `delete_book`, and a CSV
row whose parsed `copies_total` is non-negative, every Book still
satisfies `0 ≤ copies_available ≤ copies_total`, given that every Book
satisfied it before the operation.  (The non-negativity side conditions
on `update_book` and the importer are genuinely needed: neither path
validates its integer input, see the counterexample.) -/
theorem C1_range_invariant_preserved (db : DB) (op : Op) (h : rangeInv db)
    (hpre : rangeInvPre op) (db' : DB) (hok : applyOp db op = .ok db') :
    rangeInv db' := by
  cases op with
  | create inp =>
    exact rangeInv_create db inp h hpre.2.2 db' hok
  | update book_id upd =>
    exact rangeInv_update db book_id upd h hpre db' hok
  | delete book_id =>
    exact rangeInv_delete db book_id h db' hok
  | borrow user_id book_id days today =>
    simp only [applyOp] at hok
    cases hb : borrow_book db user_id book_id days today with
    | error e => rw [hb] at hok; simp [Except.map] at hok
    | ok pr =>
      rw [hb] at hok
      simp only [Except.map, Except.ok.injEq] at hok
      subst hok
      exact rangeInv_borrow db user_id book_id days today h pr.1 pr.2 hb
  | ret loan_id now =>
    simp only [applyOp] at hok
    cases hb : return_book db loan_id now with
    | error e => rw [hb] at hok; simp [Except.map] at hok
    | ok pr =>
      rw [hb] at hok
      simp only [Except.map, Except.ok.injEq] at hok
      subst hok
      exact rangeInv_return db loan_id now h pr.1 pr.2 hb
  | csvRow row =>
    simp only [applyOp] at hok
    simp only [Except.ok.injEq] at hok
    subst hok
    unfold importStep
    cases hp : parseRow row with
    | ok p => exact rangeInv_upsert db p h (hpre p hp)
    | error e => exact h

/-- Claim C1, counterexample to the unamended statement: starting from a
store satisfying the range invariant, `update_book` with requested
`copies_total = -1` (accepted — `BookUpdate` has no `ge=0` validator)
produces a book with `copies_available = 0 > copies_total = -1`, and a
CSV row with `copies_total = "-2"` inserts a book with
`copies_available = -2 < 0`. -/
theorem C1_counterexample :
    (rangeInv exDB1 ∧
     applyOp exDB1 (Op.update 1 exUpdNeg) = Except.ok exDB1' ∧ ¬ rangeInv exDB1') ∧
    (applyOp exDB1 (Op.csvRow exRowNegCopies) = Except.ok exDB1'' ∧ ¬ rangeInv exDB1'') := by
  refine ⟨⟨by decide, by rfl, by decide⟩, by rfl, by decide⟩

/-- Witness for the amended Claim C1 theorem at a concrete input: a
successful borrow against a one-copy book keeps the range invariant. -/
theorem C1_witness : rangeInv exDBW' :=
  C1_range_invariant_preserved exDBW (Op.borrow 1 1 14 100) (by decide) trivial
    exDBW' (by rfl)

/-! ### Preservation of the ledger equality, operation by operation -/

theorem ledgerInv_create (db : DB) (inp : BookCreate) (hwf : wf db)
    (h : ledgerInv db) (db' : DB) (hok : create_book db inp = .ok db') :
    ledgerInv db' := by
  unfold create_book at hok
  split at hok
  · exact absurd hok (by simp)
  · simp only [Except.ok.injEq] at hok
    subst hok
    intro b hb
    simp only [List.mem_append, List.mem_singleton] at hb
    rcases hb with hb | hb
    · exact h b hb
    · subst hb
      have hz : activeLoanCount db.loans db.nextBookId = 0 := by
        apply activeLoanCount_eq_zero
        intro l hl hact heq
        obtain ⟨bb, hbb, hbid⟩ := List.mem_map.mp (hwf.2.2 l hl hact)
        have := hwf.2.1 bb hbb
        omega
      simp only [hz]
      omega

theorem ledgerInv_update (db : DB) (book_id : Nat) (upd : BookUpdate)
    (h : ledgerInv db)
    (hpre : ∀ b, findBook db book_id = some b → ∀ t, upd.copies_total = some t →
      0 ≤ b.copies_available + (t - b.copies_total))
    (db' : DB) (hok : update_book db book_id upd = .ok db') : ledgerInv db' := by
  unfold update_book at hok
  cases hfind : findBook db book_id with
  | none => simp [hfind] at hok
  | some book =>
    simp only [hfind, Except.ok.injEq] at hok
    subst hok
    have hfind' := hfind
    unfold findBook at hfind'
    obtain ⟨l, r, hsplit, hl, hpred⟩ := find?_split _ _ _ hfind'
    have hbid : book.id = book_id := by simpa using hpred
    have hrepl : replaceBy (·.id) db.books (applyBookUpdate book upd) =
        l ++ applyBookUpdate book upd :: r := by
      rw [hsplit]
      exact replaceBy_eq_middle _ _ _ (applyBookUpdate_id book upd) l r
        (fun y hy => by have := hl y hy; simp at this; omega)
    intro b hb
    dsimp only at hb ⊢
    simp only [hrepl] at hb
    rw [List.mem_append, List.mem_cons] at hb
    rcases hb with hb | hb | hb
    · exact h b (by rw [hsplit]; exact List.mem_append_left _ hb)
    · subst hb
      have hmem : book ∈ db.books := by rw [hsplit]; simp
      have hbook := h book hmem
      have hct := applyBookUpdate_copies_total book upd
      have hca := applyBookUpdate_copies_available book upd
      rw [applyBookUpdate_id book upd]
      cases hset : upd.copies_total with
      | none =>
        rw [hset] at hct hca
        simp only at hct hca
        omega
      | some t =>
        have hge := hpre book hfind t hset
        rw [hset] at hct hca
        simp only at hct hca
        omega
    · exact h b (by rw [hsplit]; exact List.mem_append_right _ (List.mem_cons_of_mem _ hb))

theorem ledgerInv_delete (db : DB) (book_id : Nat) (h : ledgerInv db)
    (db' : DB) (hok : delete_book db book_id = .ok db') : ledgerInv db' := by
  unfold delete_book at hok
  cases hfind : findBook db book_id with
  | none => simp [hfind] at hok
  | some book =>
    simp only [hfind] at hok
    by_cases hcnt : 0 < activeLoanCount db.loans book.id
    · rw [if_pos hcnt] at hok; simp at hok
    · rw [if_neg hcnt] at hok
      simp only [Except.ok.injEq] at hok
      subst hok
      intro b hb
      exact h b (mem_removeBy _ _ _ _ hb)

theorem ledgerInv_borrow (db : DB) (user_id book_id : Nat) (days today : Int)
    (hwf : wf db) (h : ledgerInv db) (db' : DB) (loan : Loan)
    (hok : borrow_book db user_id book_id days today = .ok (db', loan)) :
    ledgerInv db' := by
  unfold borrow_book at hok
  cases hu : findUser db user_id with
  | none => simp [hu] at hok
  | some user =>
    cases hb : findBook db book_id with
    | none => simp [hu, hb] at hok
    | some book =>
      simp only [hu, hb] at hok
      by_cases hav : book.copies_available < 1
      · rw [if_pos hav] at hok; simp at hok
      · rw [if_neg hav] at hok
        simp only [Except.ok.injEq, Prod.mk.injEq] at hok
        obtain ⟨hdb, -⟩ := hok
        subst hdb
        have hb' := hb
        unfold findBook at hb'
        obtain ⟨l, r, hsplit, hl, hpred⟩ := find?_split _ _ _ hb'
        have hbid : book.id = book_id := by simpa using hpred
        have hne := key_ne_of_nodup_middle (·.id) l r book (by rw [← hsplit]; exact hwf.1)
        have hrepl : replaceBy (·.id) db.books
            { book with copies_available := book.copies_available - 1 } =
            l ++ { book with copies_available := book.copies_available - 1 } :: r := by
          rw [hsplit]
          have hlid : ∀ y ∈ l, y.id ≠ book.id := by
            intro y hy
            have := hl y hy
            simp at this
            omega
          exact replaceBy_eq_middle (·.id) book
            { book with copies_available := book.copies_available - 1 } (by rfl) l r hlid
        intro b hbm
        dsimp only at hbm ⊢
        simp only [hrepl] at hbm
        rw [List.mem_append, List.mem_cons] at hbm
        have hcount : ∀ bid : Nat,
            activeLoanCount (db.loans ++
              [{ id := db.nextLoanId, user_id := user.id, book_id := book.id,
                 due_date := today + days, returned_at := none, active := true }]) bid =
            activeLoanCount db.loans bid + (if book.id = bid then 1 else 0) := by
          intro bid
          rw [activeLoanCount_append, activeLoanCount_cons]
          simp only [activeLoanCount, List.filter_nil, List.length_nil]
          split <;> split <;> simp_all
        rcases hbm with hbm | hbm | hbm
        · have hmem : b ∈ db.books := by rw [hsplit]; exact List.mem_append_left _ hbm
          have hnb : b.id ≠ book.id := hne b (List.mem_append_left _ hbm)
          rw [hcount b.id, if_neg (fun hh => hnb hh.symm)]
          have := h b hmem
          omega
        · subst hbm
          have hmem : book ∈ db.books := by rw [hsplit]; simp
          have hbook := h book hmem
          rw [hcount book.id, if_pos rfl]
          push_cast
          omega
        · have hmem : b ∈ db.books := by
            rw [hsplit]; exact List.mem_append_right _ (List.mem_cons_of_mem _ hbm)
          have hnb : b.id ≠ book.id := hne b (List.mem_append_right _ hbm)
          rw [hcount b.id, if_neg (fun hh => hnb hh.symm)]
          have := h b hmem
          omega

theorem ledgerInv_return (db : DB) (loan_id : Nat) (now : Int)
    (hwf : wf db) (h : ledgerInv db) (db' : DB) (loanOut : Loan)
    (hok : return_book db loan_id now = .ok (db', loanOut)) : ledgerInv db' := by
  unfold return_book at hok
  cases hfl : findLoan db loan_id with
  | none => simp [hfl] at hok
  | some loan =>
    simp only [hfl] at hok
    cases hact : loan.active with
    | false => simp [hact] at hok
    | true =>
      simp only [hact, Bool.not_true, Bool.false_eq_true, if_false] at hok
      have hfl' := hfl
      unfold findLoan at hfl'
      obtain ⟨lp, rp, hlsplit, hlpre, hlpred⟩ := find?_split _ _ _ hfl'
      have hlid : loan.id = loan_id := by simpa using hlpred
      have hlrepl : replaceBy (·.id) db.loans
          { loan with returned_at := some now, active := false } =
          lp ++ { loan with returned_at := some now, active := false } :: rp := by
        rw [hlsplit]
        have hpl : ∀ y ∈ lp, y.id ≠ loan.id := by
          intro y hy
          have := hlpre y hy
          simp at this
          omega
        exact replaceBy_eq_middle (·.id) loan
          { loan with returned_at := some now, active := false } (by rfl) lp rp hpl
      have hcold : ∀ bid : Nat, activeLoanCount db.loans bid =
          activeLoanCount lp bid +
            ((if loan.book_id = bid then 1 else 0) + activeLoanCount rp bid) := by
        intro bid
        rw [hlsplit, activeLoanCount_append, activeLoanCount_cons]
        simp [hact]
      have hcnew : ∀ bid : Nat,
          activeLoanCount (lp ++ { loan with returned_at := some now, active := false } :: rp) bid =
          activeLoanCount lp bid + activeLoanCount rp bid := by
        intro bid
        rw [activeLoanCount_append, activeLoanCount_cons]
        simp
      cases hfb : findBook db loan.book_id with
      | none =>
        simp only [hfb, Except.ok.injEq, Prod.mk.injEq] at hok
        obtain ⟨hdb, -⟩ := hok
        subst hdb
        intro b hbm
        dsimp only at hbm ⊢
        have hnb : b.id ≠ loan.book_id := by
          have hfb' := hfb
          unfold findBook at hfb'
          rw [List.find?_eq_none] at hfb'
          have := hfb' b hbm
          simpa using this
        rw [hlrepl, hcnew b.id]
        have hold := hcold b.id
        rw [if_neg (fun hh => hnb hh.symm)] at hold
        have := h b hbm
        omega
      | some book =>
        simp only [hfb, Except.ok.injEq, Prod.mk.injEq] at hok
        obtain ⟨hdb, -⟩ := hok
        subst hdb
        have hfb' := hfb
        unfold findBook at hfb'
        obtain ⟨l, r, hsplit, hl, hpred⟩ := find?_split _ _ _ hfb'
        have hbid : book.id = loan.book_id := by simpa using hpred
        have hne := key_ne_of_nodup_middle (·.id) l r book (by rw [← hsplit]; exact hwf.1)
        have hbrepl : replaceBy (·.id) db.books
            { book with copies_available := min book.copies_total (book.copies_available + 1) } =
            l ++ { book with
                   copies_available := min book.copies_total (book.copies_available + 1) } :: r := by
          rw [hsplit]
          have hpb : ∀ y ∈ l, y.id ≠ book.id := by
            intro y hy
            have := hl y hy
            simp at this
            omega
          exact replaceBy_eq_middle (·.id) book
            { book with
              copies_available := min book.copies_total (book.copies_available + 1) }
            (by rfl) l r hpb
        intro b hbm
        dsimp only at hbm ⊢
        simp only [hbrepl] at hbm
        rw [List.mem_append, List.mem_cons] at hbm
        rw [hlrepl]
        rcases hbm with hbm | hbm | hbm
        · have hmem : b ∈ db.books := by rw [hsplit]; exact List.mem_append_left _ hbm
          have hnb : b.id ≠ book.id := hne b (List.mem_append_left _ hbm)
          rw [hcnew b.id]
          have hold := hcold b.id
          rw [if_neg (fun hh => hnb (hbid ▸ hh.symm))] at hold
          have := h b hmem
          omega
        · subst hbm
          have hmem : book ∈ db.books := by rw [hsplit]; simp
          have hbook := h book hmem
          rw [hcnew book.id]
          have hold := hcold book.id
          rw [if_pos hbid.symm] at hold
          push_cast at hold hbook ⊢
          omega
        · have hmem : b ∈ db.books := by
            rw [hsplit]; exact List.mem_append_right _ (List.mem_cons_of_mem _ hbm)
          have hnb : b.id ≠ book.id := hne b (List.mem_append_right _ hbm)
          rw [hcnew b.id]
          have hold := hcold b.id
          rw [if_neg (fun hh => hnb (hbid ▸ hh.symm))] at hold
          have := h b hmem
          omega

theorem ledgerInv_upsert (db : DB) (p : ParsedRow) (hwf : wf db)
    (h : ledgerInv db)
    (hpre : pyTruthy p.isbn = true →
      ∀ b, db.books.find? (fun x => x.isbn == p.isbn) = some b →
        p.copies ≤ b.copies_available) :
    ledgerInv (upsertRow db p) := by
  unfold upsertRow
  by_cases hisbn : pyTruthy p.isbn
  · rw [if_pos hisbn]
    cases hf : db.books.find? (fun x => x.isbn == p.isbn) with
    | some book =>
      have hc := hpre hisbn book hf
      have hbook := h book (List.mem_of_find?_eq_some hf)
      have havail : book.copies_available ≤ book.copies_total := by
        have : (0:Int) ≤ (activeLoanCount db.loans book.id : Int) := by positivity
        omega
      have htot : max book.copies_total p.copies = book.copies_total :=
        max_eq_left (le_trans hc havail)
      have hav : max book.copies_available p.copies = book.copies_available :=
        max_eq_left hc
      obtain ⟨l, r, hsplit, hl, hpred⟩ := find?_split _ _ _ hf
      have hne := key_ne_of_nodup_middle (·.id) l r book (by rw [← hsplit]; exact hwf.1)
      have hbrepl : replaceBy (·.id) db.books
          { book with
            title := if pyTruthy p.title then p.title else book.title,
            author := if pyTruthy p.author then p.author else book.author,
            copies_total := max book.copies_total p.copies,
            copies_available := max book.copies_available p.copies } =
          l ++ { book with
                 title := if pyTruthy p.title then p.title else book.title,
                 author := if pyTruthy p.author then p.author else book.author,
                 copies_total := max book.copies_total p.copies,
                 copies_available := max book.copies_available p.copies } :: r := by
        rw [hsplit]
        have hpb : ∀ y ∈ l, y.id ≠ book.id := fun y hy => hne y (List.mem_append_left _ hy)
        refine replaceBy_eq_middle (·.id) book _ ?_ l r hpb
        rfl
      intro b hbm
      dsimp only at hbm ⊢
      simp only [hbrepl] at hbm
      rw [List.mem_append, List.mem_cons] at hbm
      rcases hbm with hbm | hbm | hbm
      · exact h b (by rw [hsplit]; exact List.mem_append_left _ hbm)
      · subst hbm
        dsimp only
        rw [htot, hav]
        exact hbook
      · exact h b (by rw [hsplit]; exact List.mem_append_right _ (List.mem_cons_of_mem _ hbm))
    | none =>
      intro b hbm
      dsimp only at hbm ⊢
      simp only [List.mem_append, List.mem_singleton] at hbm
      rcases hbm with hbm | hbm
      · exact h b hbm
      · subst hbm
        have hz : activeLoanCount db.loans db.nextBookId = 0 := by
          apply activeLoanCount_eq_zero
          intro lo hlo hact heq
          obtain ⟨bb, hbb, hbid⟩ := List.mem_map.mp (hwf.2.2 lo hlo hact)
          have := hwf.2.1 bb hbb
          omega
        simp only [hz]
        omega
  · rw [if_neg hisbn]
    intro b hbm
    dsimp only at hbm ⊢
    simp only [List.mem_append, List.mem_singleton] at hbm
    rcases hbm with hbm | hbm
    · exact h b hbm
    · subst hbm
      have hz : activeLoanCount db.loans db.nextBookId = 0 := by
        apply activeLoanCount_eq_zero
        intro lo hlo hact heq
        obtain ⟨bb, hbb, hbid⟩ := List.mem_map.mp (hwf.2.2 lo hlo hact)
        have := hwf.2.1 bb hbb
        omega
      simp only [hz]
      omega

/-- Claim C2 (amended): `copies_total - copies_available = number of
active loans referencing the book` is preserved by `create_book`,
`borrow_book`, `return_book`, `delete_book` and a CSV insert, given the
key discipline of the schema (`wf`); `update_book` preserves it only when the
requested `copies_total` keeps `copies_available + delta` non-negative
(otherwise the `max(0, ..)` clamp loses the equality), and a CSV merge
preserves it only when the incoming `copies_total` is at most the
existing `copies_available` (otherwise the never-shrink `max` raises
availability without closing any loan).  See the counterexample for the
two excluded cases. -/
theorem C2_ledger_invariant_preserved (db : DB) (op : Op) (hwf : wf db)
    (h : ledgerInv db) (hpre : ledgerInvPre db op) (db' : DB)
    (hok : applyOp db op = .ok db') : ledgerInv db' := by
  cases op with
  | create inp =>
    exact ledgerInv_create db inp hwf h db' hok
  | update book_id upd =>
    exact ledgerInv_update db book_id upd h hpre db' hok
  | delete book_id =>
    exact ledgerInv_delete db book_id h db' hok
  | borrow user_id book_id days today =>
    simp only [applyOp] at hok
    cases hb : borrow_book db user_id book_id days today with
    | error e => rw [hb] at hok; simp [Except.map] at hok
    | ok pr =>
      rw [hb] at hok
      simp only [Except.map, Except.ok.injEq] at hok
      subst hok
      exact ledgerInv_borrow db user_id book_id days today hwf h pr.1 pr.2 hb
  | ret loan_id now =>
    simp only [applyOp] at hok
    cases hb : return_book db loan_id now with
    | error e => rw [hb] at hok; simp [Except.map] at hok
    | ok pr =>
      rw [hb] at hok
      simp only [Except.map, Except.ok.injEq] at hok
      subst hok
      exact ledgerInv_return db loan_id now hwf h pr.1 pr.2 hb
  | csvRow row =>
    simp only [applyOp] at hok
    simp only [Except.ok.injEq] at hok
    subst hok
    unfold importStep
    cases hp : parseRow row with
    | ok p => exact ledgerInv_upsert db p hwf h (fun ht b hf => hpre p hp ht b hf)
    | error e => exact h

/-- Claim C2, counterexample to the unamended statement: a book with 2
copies both on loan satisfies the equality; shrinking `copies_total` to
1 trips the clamp and leaves `1 - 0 = 1 ≠ 2` active loans, and a CSV
merge with incoming `copies_total = 1` raises `copies_available` to 1
leaving `2 - 1 = 1 ≠ 2` active loans. -/
theorem C2_counterexample :
    (wf exDB2 ∧ ledgerInv exDB2) ∧
    (applyOp exDB2 (Op.update 1 exUpd21) = Except.ok exDB2' ∧ ¬ ledgerInv exDB2') ∧
    (applyOp exDB2 (Op.csvRow exRowMerge) = Except.ok exDB2'' ∧ ¬ ledgerInv exDB2'') := by
  refine ⟨⟨by decide, by decide⟩, ⟨by rfl, by decide⟩, by rfl, by decide⟩

/-- Witness for the amended Claim C2 theorem: returning one of the two
loans restores the equality `2 - 1 = 1` active loan. -/
theorem C2_witness : ledgerInv exDB2r :=
  C2_ledger_invariant_preserved exDB2 (Op.ret 1 50) (by decide) (by decide) trivial
    exDB2r (by rfl)

/-- Claim C3 (confirmed): the `days` query parameter defaults to 14;
`borrow_book` fails with `NotFound` when the user or the book is
missing, fails with `OutOfStock` when `copies_available < 1`, and
otherwise commits a new Loan with `due_date = today + days`,
`active = true`, `returned_at = NULL` while decrementing the
`copies_available` of the book by exactly 1. -/
theorem C3_borrow_spec (db : DB) (user_id book_id : Nat) (days today : Int) :
    defaultLoanDays = 14 ∧
    ((findUser db user_id = none ∨ findBook db book_id = none) →
      borrow_book db user_id book_id days today = .error .NotFound) ∧
    (∀ u b, findUser db user_id = some u → findBook db book_id = some b →
      (b.copies_available < 1 →
        borrow_book db user_id book_id days today = .error .OutOfStock) ∧
      (1 ≤ b.copies_available →
        borrow_book db user_id book_id days today =
          .ok ({ db with
                 books := replaceBy (·.id) db.books
                   { b with copies_available := b.copies_available - 1 },
                 loans := db.loans ++
                   [{ id := db.nextLoanId, user_id := u.id, book_id := b.id,
                      due_date := today + days, returned_at := none, active := true }],
                 nextLoanId := db.nextLoanId + 1 },
               { id := db.nextLoanId, user_id := u.id, book_id := b.id,
                 due_date := today + days, returned_at := none, active := true }))) := by
  refine ⟨rfl, ?_, ?_⟩
  · intro h
    rcases h with h | h
    · cases hfb : findBook db book_id <;> simp [borrow_book, h, hfb]
    · cases hu : findUser db user_id <;> simp [borrow_book, h, hu]
  · intro u b hu hb
    constructor
    · intro hav
      simp [borrow_book, hu, hb, hav]
    · intro hav
      have hno : ¬(b.copies_available < 1) := by omega
      simp [borrow_book, hu, hb, hno]

/-- Witness for Claim C3 at concrete inputs: a successful borrow with
`days = 7`, a missing user, and an out-of-stock book. -/
theorem C3_witness :
    borrow_book exDBW 1 1 7 100 = Except.ok (exDBW3, exLoan3) ∧
    borrow_book exDBW 2 1 7 100 = Except.error ApiError.NotFound ∧
    borrow_book exDB2 1 1 7 100 = Except.error ApiError.OutOfStock :=
  ⟨((C3_borrow_spec exDBW 1 1 7 100).2.2 exUser1 exBook1 (by rfl) (by rfl)).2 (by decide),
   (C3_borrow_spec exDBW 2 1 7 100).2.1 (Or.inl (by rfl)),
   ((C3_borrow_spec exDB2 1 1 7 100).2.2 exUser1 exBook2 (by rfl) (by rfl)).1 (by decide)⟩

/-- Claim C4: on a loan that is already closed (`active = false`), the
single-file handler `return_book` fails with `Conflict` ("Loan already
closed") and leaves the store unchanged, exactly as the claim states —
but the modular copy `app/api/routes.py` omits the `loan.active` check:
its `routes_return_book` succeeds on the same input, overwrites
`returned_at` and re-increments the `copies_available` of the book from 0 to
1 (clamped) although no copy was out, changing the store. -/
theorem C4_routes_return_skips_conflict_check :
    return_book exDB4 1 99 = Except.error ApiError.Conflict ∧
    routes_return_book exDB4 1 99 = Except.ok (exDB4', exLoan4') ∧
    exDB4' ≠ exDB4 := by
  refine ⟨by rfl, by rfl, by decide⟩

/-- Claim C6 (confirmed): with a truthy (non-empty) ISBN matching an
existing book, the importer merges — adopting the incoming title/author
only when truthy, `copies_total := max(existing, incoming)`,
`copies_available := max(existing_available, incoming_total)` — so
neither counter ever shrinks; with a truthy but unmatched ISBN, or a
falsy ISBN, it inserts a new Book with
`copies_available = copies_total` (the falsy case stores no ISBN). -/
theorem C6_csv_upsert_policy (db : DB) (p : ParsedRow) :
    (∀ b, pyTruthy p.isbn = true →
      db.books.find? (fun x => x.isbn == p.isbn) = some b →
        upsertRow db p =
          { db with books := replaceBy (·.id) db.books
                      { b with
                        title := if pyTruthy p.title then p.title else b.title,
                        author := if pyTruthy p.author then p.author else b.author,
                        copies_total := max b.copies_total p.copies,
                        copies_available := max b.copies_available p.copies } } ∧
        b.copies_total ≤ max b.copies_total p.copies ∧
        b.copies_available ≤ max b.copies_available p.copies) ∧
    (pyTruthy p.isbn = true →
      db.books.find? (fun x => x.isbn == p.isbn) = none →
        upsertRow db p =
          { db with
            books := db.books ++
              [{ id := db.nextBookId, title := p.title, author := p.author,
                 isbn := p.isbn, published_date := p.pd,
                 copies_total := p.copies, copies_available := p.copies }],
            nextBookId := db.nextBookId + 1 }) ∧
    (pyTruthy p.isbn = false →
      upsertRow db p =
        { db with
          books := db.books ++
            [{ id := db.nextBookId, title := p.title, author := p.author,
               isbn := none, published_date := p.pd,
               copies_total := p.copies, copies_available := p.copies }],
          nextBookId := db.nextBookId + 1 }) := by
  refine ⟨?_, ?_, ?_⟩
  · intro b ht hf
    refine ⟨?_, le_max_left _ _, le_max_left _ _⟩
    unfold upsertRow
    rw [if_pos ht, hf]
  · intro ht hf
    unfold upsertRow
    rw [if_pos ht, hf]
  · intro ht
    unfold upsertRow
    rw [if_neg (by simp [ht])]

/-- Witness for Claim C6: a concrete merge (ISBN `X`, incoming 5 copies
against an existing 2-total/0-available book) and a concrete insert (no
ISBN). -/
theorem C6_witness :
    upsertRow exDB2 exParsedMerge =
      { exDB2 with books := [⟨1, some "T2", some "A", some "X", none, 5, 5⟩] } ∧
    upsertRow exDB2 exParsedNew =
      { exDB2 with books := exDB2.books ++ [⟨2, some "T3", some "A3", none, none, 3, 3⟩],
                   nextBookId := 3 } :=
  ⟨((C6_csv_upsert_policy exDB2 exParsedMerge).1 exBook2 (by decide) (by rfl)).1,
   (C6_csv_upsert_policy exDB2 exParsedNew).2.2 (by decide)⟩

/-- Claim C8 (confirmed): updating an existing book (satisfying the
range invariant) with a requested `copies_total = new_total ≥ 0` shifts
`copies_available` by the delta `new_total - old_total`, clamping only
at 0, and the result always lies in `[0, new_total]`; when the shifted
value would be negative the result is exactly 0. -/
theorem C8_resize_spec (db : DB) (book_id : Nat) (upd : BookUpdate) (b : Book)
    (new_total : Int) (hfind : findBook db book_id = some b)
    (hset : upd.copies_total = some new_total) (ht : 0 ≤ new_total)
    (hrange : bookRangeOK b) :
    update_book db book_id upd =
      .ok { db with books := replaceBy (·.id) db.books (applyBookUpdate b upd) } ∧
    (applyBookUpdate b upd).copies_total = new_total ∧
    (applyBookUpdate b upd).copies_available =
      max 0 (b.copies_available + (new_total - b.copies_total)) ∧
    0 ≤ (applyBookUpdate b upd).copies_available ∧
    (applyBookUpdate b upd).copies_available ≤ new_total ∧
    (0 ≤ b.copies_available + (new_total - b.copies_total) →
      (applyBookUpdate b upd).copies_available =
        b.copies_available + (new_total - b.copies_total)) ∧
    (b.copies_available + (new_total - b.copies_total) < 0 →
      (applyBookUpdate b upd).copies_available = 0) := by
  have hct := applyBookUpdate_copies_total b upd
  have hca := applyBookUpdate_copies_available b upd
  rw [hset] at hct hca
  simp only at hct hca
  refine ⟨?_, by omega, by omega, by omega, by omega, by omega, by omega⟩
  unfold update_book
  rw [hfind]

/-- Witness for Claim C8: shrinking a 5-total/2-available book to
`new_total = 1` trips the clamp: the resulting availability is exactly
0. -/
theorem C8_witness : (applyBookUpdate exBook8 exUpd8).copies_available = 0 :=
  (C8_resize_spec exDB8 1 exUpd8 exBook8 1 (by rfl) (by rfl) (by decide)
    (by decide)).2.2.2.2.2.2 (by decide)

/-- Claim C9 (confirmed): `delete_book` fails with `NotFound` when the
book is absent; fails with `Conflict` when some active loan references
it (the error aborts the transaction, so the book stays); and when every
loan referencing the book has been returned (`active = false`) it
removes the row, after which a lookup of that id finds nothing. -/
theorem C9_delete_spec (db : DB) (book_id : Nat)
    (hnd : (db.books.map (·.id)).Nodup) :
    (findBook db book_id = none → delete_book db book_id = .error .NotFound) ∧
    (∀ b, findBook db book_id = some b →
      (0 < activeLoanCount db.loans b.id → delete_book db book_id = .error .Conflict) ∧
      ((∀ l ∈ db.loans, l.book_id = b.id → l.active = false) →
        delete_book db book_id =
          .ok { db with books := removeBy (·.id) db.books b.id } ∧
        findBook { db with books := removeBy (·.id) db.books b.id } book_id = none)) := by
  constructor
  · intro h
    unfold delete_book
    rw [h]
  · intro b hfind
    constructor
    · intro hcnt
      unfold delete_book
      simp only [hfind]
      rw [if_pos hcnt]
    · intro hret
      have hz : activeLoanCount db.loans b.id = 0 := by
        apply activeLoanCount_eq_zero
        intro l hl hact heq
        have := hret l hl heq
        rw [this] at hact
        exact Bool.false_ne_true hact
      constructor
      · unfold delete_book
        simp only [hfind]
        rw [if_neg (by omega)]
      · have hfind' := hfind
        unfold findBook at hfind'
        obtain ⟨l, r, hsplit, hl, hpred⟩ := find?_split _ _ _ hfind'
        have hbid : b.id = book_id := by simpa using hpred
        have hne := key_ne_of_nodup_middle (·.id) l r b (by rw [← hsplit]; exact hnd)
        have hrem : removeBy (·.id) db.books b.id = l ++ r := by
          rw [hsplit]
          apply removeBy_eq_middle (·.id) b b.id rfl
          intro y hy
          have := hl y hy
          simp at this
          omega
        unfold findBook
        dsimp only
        rw [hrem, List.find?_eq_none]
        intro x hx
        have hxne : x.id ≠ b.id := hne x hx
        simp
        omega

/-- Witness for Claim C9: deleting a book whose only loan was returned
succeeds; deleting one with an active loan fails with `Conflict`. -/
theorem C9_witness :
    delete_book exDB9 1 = Except.ok { exDB9 with books := [] } ∧
    delete_book exDB9c 1 = Except.error ApiError.Conflict :=
  ⟨(((C9_delete_spec exDB9 1 (by decide)).2 exBook1 (by rfl)).2 (by decide)).1,
   ((C9_delete_spec exDB9c 1 (by decide)).2 exBook1 (by rfl)).1 (by decide)⟩

/-! ### The import loop, row by row -/

theorem importRows_db_eq (rows : List CsvRow) :
    ∀ (db : DB) (i c : Nat) (errs : List (Nat × String)),
      (importRows db rows i c errs).db = rows.foldl importStep db := by
  induction rows with
  | nil => intro db i c errs; rfl
  | cons row rest ih =>
    intro db i c errs
    cases hp : parseRow row with
    | ok p =>
      simp only [importRows, hp, List.foldl_cons, importStep]
      exact ih (upsertRow db p) (i + 1) (c + 1) errs
    | error e =>
      simp only [importRows, hp, List.foldl_cons, importStep]
      exact ih db (i + 1) c (errs ++ [(i, e)])

theorem importRows_errors_shape (rows : List CsvRow) :
    ∀ (db : DB) (i c : Nat) (errs : List (Nat × String)),
      ∃ extra, (importRows db rows i c errs).errors = errs ++ extra := by
  induction rows with
  | nil => intro db i c errs; exact ⟨[], by simp [importRows]⟩
  | cons row rest ih =>
    intro db i c errs
    cases hp : parseRow row with
    | ok p =>
      simp only [importRows, hp]
      exact ih (upsertRow db p) (i + 1) (c + 1) errs
    | error e =>
      simp only [importRows, hp]
      obtain ⟨extra, hex⟩ := ih db (i + 1) c (errs ++ [(i, e)])
      exact ⟨(i, e) :: extra, by rw [hex, List.append_assoc]; rfl⟩

theorem importRows_error_mem (rows : List CsvRow) :
    ∀ (db : DB) (i c : Nat) (errs : List (Nat × String)) (j : Nat)
      (hj : j < rows.length) (e : String),
      parseRow (rows.get ⟨j, hj⟩) = .error e →
      (i + j, e) ∈ (importRows db rows i c errs).errors := by
  induction rows with
  | nil => intro db i c errs j hj; exact absurd hj (by simp)
  | cons row rest ih =>
    intro db i c errs j hj e hpe
    cases j with
    | zero =>
      have hpe' : parseRow row = .error e := hpe
      simp only [importRows, hpe']
      obtain ⟨extra, hex⟩ := importRows_errors_shape rest db (i + 1) c (errs ++ [(i, e)])
      rw [hex]
      simp
    | succ j' =>
      have hj' : j' < rest.length := by simpa using hj
      have hpe' : parseRow (rest.get ⟨j', hj'⟩) = .error e := hpe
      have hadd : i + (j' + 1) = (i + 1) + j' := by omega
      cases hp : parseRow row with
      | ok p =>
        simp only [importRows, hp]
        rw [hadd]
        exact ih (upsertRow db p) (i + 1) (c + 1) errs j' hj' e hpe'
      | error e2 =>
        simp only [importRows, hp]
        rw [hadd]
        exact ih db (i + 1) c (errs ++ [(i, e2)]) j' hj' e hpe'

theorem importRows_counts (rows : List CsvRow) :
    ∀ (db : DB) (i c : Nat) (errs : List (Nat × String)),
      (importRows db rows i c errs).created + (importRows db rows i c errs).errors.length
        = c + errs.length + rows.length := by
  induction rows with
  | nil => intro db i c errs; simp [importRows]
  | cons row rest ih =>
    intro db i c errs
    cases hp : parseRow row with
    | ok p =>
      simp only [importRows, hp]
      rw [ih (upsertRow db p) (i + 1) (c + 1) errs]
      simp only [List.length_cons]
      omega
    | error e =>
      simp only [importRows, hp]
      rw [ih db (i + 1) c (errs ++ [(i, e)])]
      simp only [List.length_cons, List.length_append, List.length_nil]
      omega

theorem importRows_created_eq (rows : List CsvRow) :
    ∀ (db : DB) (i c : Nat) (errs : List (Nat × String)),
      (importRows db rows i c errs).created = c + rows.countP rowParses := by
  induction rows with
  | nil => intro db i c errs; simp [importRows]
  | cons row rest ih =>
    intro db i c errs
    cases hp : parseRow row with
    | ok p =>
      have hrp : rowParses row = true := by unfold rowParses; rw [hp]
      simp only [importRows, hp, List.countP_cons, hrp, eq_self_iff_true, if_true]
      rw [ih (upsertRow db p) (i + 1) (c + 1) errs]
      omega
    | error e =>
      have hrp : rowParses row = false := by unfold rowParses; rw [hp]
      simp only [importRows, hp, List.countP_cons, hrp, Bool.false_eq_true, if_false]
      rw [ih db (i + 1) c (errs ++ [(i, e)])]
      omega

/-- Claim C7 (amended): a row whose `try:` body raises — a bad integer
in `copies_total`, or a `published_date` rejected by both the ISO parse
and the `%Y-%m-%d` fallback — is recorded as `{row: index, error}` (with
the 1-based index `enumerate(reader, start=1)` assigns), and the store
effect of the batch is the fold of the per-row effect over ALL rows, so
the other rows are still processed and committed.  A missing required
field, however, raises nothing inside the loop (see the
counterexample). -/
theorem C7_row_failure_isolation (db : DB) (rows : List CsvRow) :
    (import_books_csv db rows).db = rows.foldl importStep db ∧
    (∀ (j : Nat) (hj : j < rows.length) (e : String),
      parseRow (rows.get ⟨j, hj⟩) = .error e →
      (j + 1, e) ∈ (import_books_csv db rows).errors) := by
  constructor
  · exact importRows_db_eq rows db 1 0 []
  · intro j hj e hpe
    have := importRows_error_mem rows db 1 0 [] j hj e hpe
    rw [Nat.add_comm] at this
    exact this

/-- Claim C7, counterexample to the "missing required field" part: a row
with no `title`/`Title` cell sails through the loop body — it is counted
as created and inserted with a NULL title, and the returned `errors`
list is empty, instead of carrying a `{row_index, error_message}` entry
for it.  (In the real store the `NOT NULL` constraint then fails the
final `db.commit()`, aborting the whole batch — either way the per-row
capture stated by the claim does not happen.) -/
theorem C7_counterexample :
    (import_books_csv db0 [exRowNoTitle]).errors = [] ∧
    (import_books_csv db0 [exRowNoTitle]).created = 1 ∧
    (import_books_csv db0 [exRowNoTitle]).db.books =
      [⟨1, none, some "A", none, none, 1, 1⟩] :=
  ⟨rfl, rfl, rfl⟩

/-- Witness for the amended Claim C7 theorem: in a two-row batch whose
second row has `copies_total = "x"`, the bad row is reported as row 2
with the `int()` error. -/
theorem C7_witness :
    (2, "invalid literal for int()") ∈ (import_books_csv db0 exRows7).errors :=
  (C7_row_failure_isolation db0 exRows7).2 1 (by decide) "invalid literal for int()" (by rfl)

/-- Claim C10 (confirmed): `created` counts exactly the rows whose
`try:` body does not raise — merge rows included, since the merge path
also executes `created += 1` — and every row either increments `created`
or appends one error entry, so
`created + len(errors) = number of data rows`. -/
theorem C10_import_created_count (db : DB) (rows : List CsvRow) :
    (import_books_csv db rows).created + (import_books_csv db rows).errors.length
      = rows.length ∧
    (import_books_csv db rows).created = rows.countP rowParses := by
  constructor
  · have := importRows_counts rows db 1 0 []
    simpa using this
  · have := importRows_created_eq rows db 1 0 []
    simpa using this
